import Mathlib

/-!
Shallow embedding of the analytic performance-model evaluator of the
Intro-page repository (photonic computing demo): the PCIe bandwidth model
and DMA engine (`pcie_interface.py`), the hybrid FPGA/photonic workload
partitioner and cluster scaling model (`fpga_integration.py`), and the
thin-film lithium-niobate component models (`tfln_components.py`).
Python float arithmetic is modelled with exact rational/real arithmetic;
Python ints with `Int`/`Nat`; exceptions with `Except`.
-/

/-- `PCIeGeneration` enum from `pcie_interface.py`; the first component of the
Python enum value is the per-lane rate in Gbps. -/
inductive PCIeGeneration where
  | GEN3
  | GEN4
  | GEN5
  | GEN6
deriving DecidableEq

/-- Per-lane data rate in Gbps (first component of the Python enum value). -/
def PCIeGeneration.rate : PCIeGeneration → ℚ
  | .GEN3 => 8.0
  | .GEN4 => 16.0
  | .GEN5 => 32.0
  | .GEN6 => 64.0

/-- `PCIeConfiguration` dataclass from `pcie_interface.py`. -/
structure PCIeConfiguration where
  generation : PCIeGeneration
  num_lanes : ℕ
  max_payload_size : ℕ
  max_read_request : ℕ
deriving DecidableEq

/-- Default configuration: Gen5, x16, 512-byte payload, 4096-byte read request. -/
def PCIeConfiguration.default : PCIeConfiguration :=
  ⟨PCIeGeneration.GEN5, 16, 512, 4096⟩

/-- `PCIeConfiguration.bandwidth_gbps`: per-lane rate times lane count times
the 128b/130b encoding efficiency. -/
def PCIeConfiguration.bandwidth_gbps (c : PCIeConfiguration) : ℚ :=
  c.generation.rate * c.num_lanes * (128.0 / 130.0)

/-- `PCIeConfiguration.bandwidth_gbytes_per_sec`. -/
def PCIeConfiguration.bandwidth_gbytes_per_sec (c : PCIeConfiguration) : ℚ :=
  c.bandwidth_gbps / 8.0

/-- Result dict of `HybridFPGAPhotonic.partition_workload` in
`fpga_integration.py`. -/
structure WorkloadPartition where
  fpga_fraction : ℚ
  photonic_fraction : ℚ
  recommended_unit : String
deriving DecidableEq

/-- `HybridFPGAPhotonic.partition_workload` from `fpga_integration.py`:
task-type dispatch with a size threshold for matmul and a fail-closed
default row. -/
def partition_workload (task_type : String) (size : ℤ) : WorkloadPartition :=
  if task_type = "matmul" then
    if 512 ≤ size then
      ⟨0.1, 0.9, "photonic"⟩
    else
      ⟨0.8, 0.2, "fpga"⟩
  else if task_type = "fft" then
    ⟨0.2, 0.8, "photonic"⟩
  else if task_type = "conv" then
    ⟨0.5, 0.5, "hybrid"⟩
  else
    ⟨1.0, 0.0, "fpga"⟩

/-- The §4.7 decision table of the specification, written exactly as the
spec's table reads (spec-side definition, for the refinement comparison). -/
def partition_spec_table (task_type : String) (size : ℤ) : WorkloadPartition :=
  if task_type = "matmul" ∧ 512 ≤ size then ⟨0.1, 0.9, "photonic"⟩
  else if task_type = "matmul" ∧ size < 512 then ⟨0.8, 0.2, "fpga"⟩
  else if task_type = "fft" then ⟨0.2, 0.8, "photonic"⟩
  else if task_type = "conv" then ⟨0.5, 0.5, "hybrid"⟩
  else ⟨1.0, 0.0, "fpga"⟩

/-- `LargeScaleComputeCluster` from `fpga_integration.py` (the `nodes` list
is irrelevant to `aggregate_performance`, which only reads `num_nodes`). -/
structure LargeScaleComputeCluster where
  num_nodes : ℕ
deriving DecidableEq

/-- Result dict of `LargeScaleComputeCluster.aggregate_performance`. -/
structure AggregatePerformance where
  num_nodes : ℕ
  total_pflops : ℚ
  total_power_kw : ℚ
  efficiency_gflops_per_watt : ℚ
  total_memory_tb : ℚ
deriving DecidableEq

/-- `LargeScaleComputeCluster.aggregate_performance` from
`fpga_integration.py`: fixed 10 TFLOPS per node, 75 W FPGA plus 2 W
photonic per node, all linear in the node count. -/
def LargeScaleComputeCluster.aggregate_performance
    (c : LargeScaleComputeCluster) : AggregatePerformance :=
  let single_node_tflops : ℚ := 10.0
  let total_pflops := (single_node_tflops * c.num_nodes) / 1000.0
  let fpga_power_w : ℚ := 75.0
  let photonic_power_w : ℚ := 2.0
  let total_power_kw := (fpga_power_w + photonic_power_w) * c.num_nodes / 1000.0
  { num_nodes := c.num_nodes
    total_pflops := total_pflops
    total_power_kw := total_power_kw
    efficiency_gflops_per_watt := (total_pflops * 1e6) / (total_power_kw * 1000)
    total_memory_tb := c.num_nodes * (64 + 32) / 1024 }

/-- Claim C1: `partition_workload` agrees with the spec's §4.7 decision table
on every task type and every size: matmul with size ≥ 512 gives
(0.1, 0.9, photonic), matmul with size < 512 gives (0.8, 0.2, fpga), fft
gives (0.2, 0.8, photonic), conv gives (0.5, 0.5, hybrid), and any other
task type fails closed to (1.0, 0.0, fpga) without raising; in particular
size 511 gives fpga_fraction 0.8 and size 512 gives fpga_fraction 0.1. -/
theorem partition_workload_matches_spec_table (task_type : String) (size : ℤ) :
    partition_workload task_type size = partition_spec_table task_type size ∧
    partition_workload "matmul" 511 = ⟨0.8, 0.2, "fpga"⟩ ∧
    partition_workload "matmul" 512 = ⟨0.1, 0.9, "photonic"⟩ := by
  refine ⟨?_, by norm_num [partition_workload], by norm_num [partition_workload]⟩
  unfold partition_workload partition_spec_table
  by_cases hm : task_type = "matmul"
  · subst hm
    by_cases hs : (512 : ℤ) ≤ size
    · simp [hs]
    · simp [hs, lt_of_not_le hs]
  · by_cases hf : task_type = "fft"
    · simp [hm, hf]
    · by_cases hc : task_type = "conv"
      · simp [hm, hf, hc]
      · simp [hm, hf, hc]

/-- Claim C4 counterexample: for the Gen5 x16 configuration,
`bandwidth_gbps` equals 32·16·(128/130) = 65536/130 ≈ 504.12, which is
more than 0.3 away from the spec's stated value 504.49, far outside any
floating-point tolerance. -/
theorem bandwidth_gbps_gen5_x16_not_504_49 :
    PCIeConfiguration.default.bandwidth_gbps = 32.0 * 16 * (128.0 / 130.0) ∧
    |PCIeConfiguration.default.bandwidth_gbps - 504.49| > 0.3 := by
  have hval : PCIeConfiguration.default.bandwidth_gbps = 65536 / 130 := by
    norm_num [PCIeConfiguration.bandwidth_gbps, PCIeConfiguration.default,
      PCIeGeneration.rate]
  constructor
  · rw [hval]; norm_num
  · rw [hval, abs_of_nonpos (by norm_num)]
    norm_num

/-- Claim C4 (amended): for every configuration with generation Gen5 and
16 lanes, `bandwidth_gbps` equals 32·16·(128/130) exactly, which is
approximately 504.12 Gbps. -/
theorem bandwidth_gbps_gen5_x16 (payload readreq : ℕ) :
    (PCIeConfiguration.mk PCIeGeneration.GEN5 16 payload
      readreq).bandwidth_gbps = 32.0 * 16 * (128.0 / 130.0) ∧
    |(PCIeConfiguration.mk PCIeGeneration.GEN5 16 payload
      readreq).bandwidth_gbps - 504.12| < 0.01 := by
  have hval : (PCIeConfiguration.mk PCIeGeneration.GEN5 16 payload
      readreq).bandwidth_gbps = 65536 / 130 := by
    norm_num [PCIeConfiguration.bandwidth_gbps, PCIeGeneration.rate]
  constructor
  · rw [hval]; norm_num
  · rw [hval, abs_lt]
    constructor <;> norm_num

/-- Claim C7: cluster performance scales strictly linearly in node count:
64 nodes give exactly 64 times the single-node total_pflops, with each node
contributing a fixed 10 TFLOPS and a fixed 75 W FPGA plus 2 W photonic
power. -/
theorem aggregate_performance_linear_scaling :
    (LargeScaleComputeCluster.aggregate_performance ⟨64⟩).total_pflops =
      64 * (LargeScaleComputeCluster.aggregate_performance ⟨1⟩).total_pflops ∧
    (∀ n : ℕ,
      (LargeScaleComputeCluster.aggregate_performance ⟨n⟩).total_pflops =
        (10.0 * n) / 1000.0 ∧
      (LargeScaleComputeCluster.aggregate_performance ⟨n⟩).total_power_kw =
        (75.0 + 2.0) * n / 1000.0) := by
  refine ⟨?_, fun n => ⟨rfl, rfl⟩⟩
  norm_num [LargeScaleComputeCluster.aggregate_performance]

/-- Element of a list at an index, with a default for out-of-range access
(mirrors how the DMA engine proofs read Python list cells). -/
def nth {α : Type} (l : List α) (i : ℕ) (d : α) : α := (l[i]?).getD d

theorem nth_set_self {α : Type} (l : List α) (i : ℕ) (a d : α)
    (h : i < l.length) : nth (l.set i a) i d = a := by
  simp [nth, List.getElem?_set_eq_of_lt a h]

theorem nth_set_ne {α : Type} (l : List α) (i j : ℕ) (a d : α)
    (h : i ≠ j) : nth (l.set i a) j d = nth l j d := by
  simp [nth, List.getElem?_set_ne h]

theorem nth_replicate {α : Type} (n i : ℕ) (a d : α) (h : i < n) :
    nth (List.replicate n a) i d = a := by
  simp [nth, h]

theorem nth_of_len_le {α : Type} (l : List α) (i : ℕ) (d : α)
    (h : l.length ≤ i) : nth l i d = d := by
  simp [nth, List.getElem?_eq_none h]

/-- A transfer descriptor, the dict built by `DMAEngine.initiate_transfer`
in `pcie_interface.py`. -/
structure DMATransfer where
  source : ℤ
  dest : ℤ
  size : ℤ
  direction : String
  status : String
deriving DecidableEq

/-- The exceptions `DMAEngine.initiate_transfer` can raise: the explicit
`ValueError` for `channel >= num_channels`, and the `IndexError` Python list
indexing raises for `channel < -num_channels`. -/
inductive DMAError where
  | valueError
  | indexError
deriving DecidableEq

/-- `DMAEngine` state from `pcie_interface.py`. -/
structure DMAEngine where
  num_channels : ℕ
  channel_status : List String
  transfer_queue : List (List DMATransfer)
  total_bytes_transferred : ℤ
  total_transfers : ℕ
deriving DecidableEq

/-- `DMAEngine.__init__`: all channels idle with empty queues, counters at
zero. -/
def DMAEngine.mkEngine (num_channels : ℕ) : DMAEngine :=
  { num_channels := num_channels
    channel_status := List.replicate num_channels "idle"
    transfer_queue := List.replicate num_channels []
    total_bytes_transferred := 0
    total_transfers := 0 }

/-- Python list indexing: a non-negative index is used as is when in range;
a negative index `i` with `-len ≤ i` addresses cell `len + i`; anything else
raises `IndexError` (modelled as `none`). -/
def pyIndex (len : ℕ) (i : ℤ) : Option ℕ :=
  if 0 ≤ i then
    if i < (len : ℤ) then some i.toNat else none
  else
    if 0 ≤ i + (len : ℤ) then some (i + (len : ℤ)).toNat else none

/-- `DMAEngine.initiate_transfer`: raises `ValueError` when
`channel >= num_channels`, otherwise appends a pending transfer to the
channel's queue (Python negative indexing applies) and marks the channel
busy. -/
def DMAEngine.initiate_transfer (e : DMAEngine) (channel source dest size : ℤ)
    (direction : String) : Except DMAError DMAEngine :=
  if (e.num_channels : ℤ) ≤ channel then Except.error DMAError.valueError
  else
    let t : DMATransfer := ⟨source, dest, size, direction, "pending"⟩
    match pyIndex e.transfer_queue.length channel with
    | none => Except.error DMAError.indexError
    | some i =>
      let queues := e.transfer_queue.set i (nth e.transfer_queue i [] ++ [t])
      match pyIndex e.channel_status.length channel with
      | none => Except.error DMAError.indexError
      | some j =>
        Except.ok { e with transfer_queue := queues,
                           channel_status := e.channel_status.set j "busy" }

/-- One iteration of the `process_transfers` loop body at channel `ch`:
pop the front transfer if the queue is non-empty, add its size to the byte
counter, bump the transfer counter, and mark the channel idle when its queue
has drained. -/
def processStep (acc : DMAEngine) (ch : ℕ) : DMAEngine :=
  match nth acc.transfer_queue ch [] with
  | [] => acc
  | t :: rest =>
    let acc1 : DMAEngine :=
      { acc with transfer_queue := acc.transfer_queue.set ch rest,
                 total_bytes_transferred := acc.total_bytes_transferred + t.size,
                 total_transfers := acc.total_transfers + 1 }
    if rest = [] then
      { acc1 with channel_status := acc1.channel_status.set ch "idle" }
    else acc1

/-- `DMAEngine.process_transfers`: the `for ch in range(self.num_channels)`
loop. -/
def DMAEngine.process_transfers (e : DMAEngine) : DMAEngine :=
  (List.range e.num_channels).foldl processStep e

/-- An API call against the DMA engine. -/
inductive DMAOp where
  | initiate (channel source dest size : ℤ) (direction : String)
  | process
deriving DecidableEq

/-- Apply one API call. -/
def DMAEngine.applyOp (e : DMAEngine) : DMAOp → Except DMAError DMAEngine
  | DMAOp.initiate ch s d sz dir => e.initiate_transfer ch s d sz dir
  | DMAOp.process => Except.ok e.process_transfers

/-- Run a sequence of API calls, stopping at the first raised exception. -/
def runOps (e : DMAEngine) : List DMAOp → Except DMAError DMAEngine
  | [] => Except.ok e
  | op :: ops =>
    match e.applyOp op with
    | Except.error err => Except.error err
    | Except.ok e2 => runOps e2 ops

/-- Structural well-formedness: the status and queue lists both have
`num_channels` cells (true of every engine the constructor can reach). -/
def DMAEngine.wf (e : DMAEngine) : Prop :=
  e.channel_status.length = e.num_channels ∧
  e.transfer_queue.length = e.num_channels

/-- Status/queue agreement: every channel is either busy with a non-empty
queue or idle with an empty queue. -/
def DMAEngine.statusOk (e : DMAEngine) : Prop :=
  ∀ ch : ℕ, ch < e.num_channels →
    (nth e.channel_status ch "" = "busy" ∧ nth e.transfer_queue ch [] ≠ []) ∨
    (nth e.channel_status ch "" = "idle" ∧ nth e.transfer_queue ch [] = [])

instance (e : DMAEngine) : Decidable e.wf := by
  unfold DMAEngine.wf
  infer_instance

instance (e : DMAEngine) : Decidable e.statusOk := by
  unfold DMAEngine.statusOk
  infer_instance

/-- Size of the front transfer of a channel's queue (0 for an empty queue). -/
def headSize (e : DMAEngine) (ch : ℕ) : ℤ :=
  match nth e.transfer_queue ch [] with
  | [] => 0
  | t :: _ => t.size

/-- Total size of the front transfers over all channels: the amount one
`process_transfers` call moves. -/
def pendingHeadBytes (e : DMAEngine) : ℤ :=
  ((List.range e.num_channels).map (headSize e)).sum

theorem lt_length_of_nth_ne {α : Type} (l : List α) (i : ℕ) (d : α)
    (h : nth l i d ≠ d) : i < l.length := by
  by_contra h2
  exact h (nth_of_len_le l i d (le_of_not_lt h2))

theorem processStep_shape (acc : DMAEngine) (ch : ℕ) :
    (processStep acc ch).num_channels = acc.num_channels ∧
    (processStep acc ch).channel_status.length = acc.channel_status.length ∧
    (processStep acc ch).transfer_queue.length = acc.transfer_queue.length := by
  rcases hq : nth acc.transfer_queue ch [] with _ | ⟨t, rest⟩
  · simp [processStep, hq]
  · by_cases hr : rest = [] <;> simp [processStep, hq, hr]

theorem processStep_other (acc : DMAEngine) (ch ch' : ℕ) (h : ch' ≠ ch) :
    nth (processStep acc ch).transfer_queue ch' [] =
      nth acc.transfer_queue ch' [] ∧
    nth (processStep acc ch).channel_status ch' "" =
      nth acc.channel_status ch' "" := by
  rcases hq : nth acc.transfer_queue ch [] with _ | ⟨t, rest⟩
  · simp [processStep, hq]
  · by_cases hr : rest = [] <;>
      simp [processStep, hq, hr, nth_set_ne _ ch ch' _ _ (Ne.symm h)]

theorem processStep_queue_self (acc : DMAEngine) (ch : ℕ) :
    nth (processStep acc ch).transfer_queue ch [] =
      (nth acc.transfer_queue ch []).tail := by
  rcases hq : nth acc.transfer_queue ch [] with _ | ⟨t, rest⟩
  · simp [processStep, hq]
  · have hlt : ch < acc.transfer_queue.length :=
      lt_length_of_nth_ne _ _ _ (by rw [hq]; simp)
    by_cases hr : rest = [] <;>
      simp [processStep, hq, hr, nth_set_self _ ch _ _ hlt]

theorem processStep_bytes (acc : DMAEngine) (ch : ℕ) :
    (processStep acc ch).total_bytes_transferred =
      acc.total_bytes_transferred + headSize acc ch := by
  rcases hq : nth acc.transfer_queue ch [] with _ | ⟨t, rest⟩
  · simp [processStep, headSize, hq]
  · by_cases hr : rest = [] <;> simp [processStep, headSize, hq, hr]

theorem processStep_status_self (acc : DMAEngine) (ch : ℕ) :
    nth (processStep acc ch).channel_status ch "" =
      if nth acc.transfer_queue ch [] ≠ [] ∧
         (nth acc.transfer_queue ch []).tail = [] ∧
         ch < acc.channel_status.length
      then "idle" else nth acc.channel_status ch "" := by
  rcases hq : nth acc.transfer_queue ch [] with _ | ⟨t, rest⟩
  · simp [processStep, hq]
  · by_cases hr : rest = []
    · by_cases hlt : ch < acc.channel_status.length
      · simp [processStep, hq, hr, hlt, nth_set_self _ ch _ _ hlt]
      · have : acc.channel_status.set ch "idle" = acc.channel_status :=
          List.set_eq_of_length_le (le_of_not_lt hlt)
        simp [processStep, hq, hr, hlt, this]
    · simp [processStep, hq, hr]

theorem foldl_processStep_shape (L : List ℕ) (acc : DMAEngine) :
    (L.foldl processStep acc).num_channels = acc.num_channels ∧
    (L.foldl processStep acc).channel_status.length =
      acc.channel_status.length ∧
    (L.foldl processStep acc).transfer_queue.length =
      acc.transfer_queue.length := by
  induction L generalizing acc with
  | nil => exact ⟨rfl, rfl, rfl⟩
  | cons c L ih =>
    obtain ⟨h1, h2, h3⟩ := ih (processStep acc c)
    obtain ⟨g1, g2, g3⟩ := processStep_shape acc c
    exact ⟨by rw [List.foldl_cons, h1, g1], by rw [List.foldl_cons, h2, g2],
      by rw [List.foldl_cons, h3, g3]⟩

theorem foldl_processStep_not_mem (L : List ℕ) (acc : DMAEngine) (ch : ℕ)
    (h : ch ∉ L) :
    nth (L.foldl processStep acc).transfer_queue ch [] =
      nth acc.transfer_queue ch [] ∧
    nth (L.foldl processStep acc).channel_status ch "" =
      nth acc.channel_status ch "" := by
  induction L generalizing acc with
  | nil => exact ⟨rfl, rfl⟩
  | cons c L ih =>
    have hne : ch ≠ c := fun hc => h (hc ▸ List.mem_cons_self c L)
    have hnotL : ch ∉ L := fun hc => h (List.mem_cons_of_mem c hc)
    obtain ⟨h1, h2⟩ := ih (processStep acc c) hnotL
    obtain ⟨g1, g2⟩ := processStep_other acc c ch hne
    exact ⟨by rw [List.foldl_cons, h1, g1], by rw [List.foldl_cons, h2, g2]⟩

theorem foldl_processStep_mem (L : List ℕ) (acc : DMAEngine) (ch : ℕ)
    (hnd : L.Nodup) (h : ch ∈ L) :
    nth (L.foldl processStep acc).transfer_queue ch [] =
      (nth acc.transfer_queue ch []).tail ∧
    nth (L.foldl processStep acc).channel_status ch "" =
      (if nth acc.transfer_queue ch [] ≠ [] ∧
          (nth acc.transfer_queue ch []).tail = [] ∧
          ch < acc.channel_status.length
       then "idle" else nth acc.channel_status ch "") := by
  induction L generalizing acc with
  | nil => cases h
  | cons c L ih =>
    rcases List.mem_cons.mp h with hc | hmem
    · subst hc
      have hnotL : ch ∉ L := (List.nodup_cons.mp hnd).1
      obtain ⟨h1, h2⟩ :=
        foldl_processStep_not_mem L (processStep acc ch) ch hnotL
      refine ⟨?_, ?_⟩
      · rw [List.foldl_cons, h1, processStep_queue_self]
      · rw [List.foldl_cons, h2, processStep_status_self]
    · have hne : ch ≠ c := by
        rintro rfl
        exact (List.nodup_cons.mp hnd).1 hmem
      obtain ⟨g1, g2⟩ := processStep_other acc c ch hne
      obtain ⟨h1, h2⟩ := ih (processStep acc c) (List.nodup_cons.mp hnd).2 hmem
      refine ⟨by rw [List.foldl_cons, h1, g1], ?_⟩
      rw [List.foldl_cons, h2, g1, g2,
        (processStep_shape acc c).2.1]

theorem foldl_processStep_bytes (L : List ℕ) (acc : DMAEngine)
    (hnd : L.Nodup) :
    (L.foldl processStep acc).total_bytes_transferred =
      acc.total_bytes_transferred + (L.map (headSize acc)).sum := by
  induction L generalizing acc with
  | nil => simp
  | cons c L ih =>
    have hnotL : c ∉ L := (List.nodup_cons.mp hnd).1
    have hmap : L.map (headSize (processStep acc c)) = L.map (headSize acc) := by
      refine List.map_congr_left fun ch hch => ?_
      have hne : ch ≠ c := by rintro rfl; exact hnotL hch
      unfold headSize
      rw [(processStep_other acc c ch hne).1]
    rw [List.foldl_cons, ih (processStep acc c) (List.nodup_cons.mp hnd).2,
      hmap, processStep_bytes, List.map_cons, List.sum_cons]
    ring

theorem pyIndex_lt (len : ℕ) (i : ℤ) (k : ℕ) (h : pyIndex len i = some k) :
    k < len := by
  unfold pyIndex at h
  split_ifs at h with h1 h2 h3 <;> simp at h <;> omega

theorem initiate_ok_cases (e : DMAEngine) (ch s d sz : ℤ) (dir : String)
    (e2 : DMAEngine) (hwf : e.wf)
    (h : e.initiate_transfer ch s d sz dir = Except.ok e2) :
    ∃ i : ℕ, i < e.num_channels ∧ pyIndex e.num_channels ch = some i ∧
      e2 = { e with
        transfer_queue := e.transfer_queue.set i
          (nth e.transfer_queue i [] ++ [⟨s, d, sz, dir, "pending"⟩]),
        channel_status := e.channel_status.set i "busy" } := by
  obtain ⟨hs, hq⟩ := hwf
  unfold DMAEngine.initiate_transfer at h
  rw [hq, hs] at h
  by_cases hch : (e.num_channels : ℤ) ≤ ch
  · rw [if_pos hch] at h
    exact absurd h (by simp)
  · rw [if_neg hch] at h
    rcases hpi : pyIndex e.num_channels ch with _ | i
    · rw [hpi] at h
      exact absurd h (by simp)
    · rw [hpi] at h
      simp only [Except.ok.injEq] at h
      exact ⟨i, pyIndex_lt _ _ _ hpi, rfl, h.symm⟩

theorem initiate_ok_inv (e : DMAEngine) (ch s d sz : ℤ) (dir : String)
    (e2 : DMAEngine) (hwf : e.wf) (hok : e.statusOk)
    (h : e.initiate_transfer ch s d sz dir = Except.ok e2) :
    e2.wf ∧ e2.statusOk := by
  obtain ⟨i, hi, hpi, rfl⟩ := initiate_ok_cases e ch s d sz dir e2 hwf h
  refine ⟨⟨by simpa using hwf.1, by simpa using hwf.2⟩, ?_⟩
  intro k hk
  simp only at hk
  by_cases hki : k = i
  · subst hki
    left
    constructor
    · exact nth_set_self _ k _ _ (hwf.1 ▸ hi)
    · rw [nth_set_self _ k _ _ (hwf.2 ▸ hi)]
      simp
  · rw [nth_set_ne _ i k _ _ (fun hik => hki hik.symm),
      nth_set_ne _ i k _ _ (fun hik => hki hik.symm)]
    exact hok k hk

theorem process_inv (e : DMAEngine) (hwf : e.wf) (hok : e.statusOk) :
    e.process_transfers.wf ∧ e.process_transfers.statusOk := by
  unfold DMAEngine.process_transfers
  obtain ⟨hn, hs, hq⟩ := foldl_processStep_shape (List.range e.num_channels) e
  constructor
  · exact ⟨by rw [hs, hn, hwf.1], by rw [hq, hn, hwf.2]⟩
  · intro ch hch
    rw [hn] at hch
    have hmem : ch ∈ List.range e.num_channels := List.mem_range.mpr hch
    obtain ⟨hq1, hq2⟩ :=
      foldl_processStep_mem _ e ch (List.nodup_range _) hmem
    rw [hq1, hq2]
    rcases hok ch hch with ⟨hb, hne⟩ | ⟨hid, hemp⟩
    · rcases hcase : nth e.transfer_queue ch [] with _ | ⟨t, rest⟩
      · exact absurd hcase hne
      · by_cases hr : rest = []
        · right
          rw [if_pos ⟨by simp, by simp [hr], by rw [hwf.1]; exact hch⟩]
          exact ⟨rfl, by simp [hr]⟩
        · left
          rw [if_neg (by simp [hr])]
          exact ⟨hb, by simpa using hr⟩
    · right
      rw [if_neg (by rw [hemp]; simp)]
      exact ⟨hid, by simp [hemp]⟩

theorem runOps_inv (ops : List DMAOp) (e e2 : DMAEngine)
    (hwf : e.wf) (hok : e.statusOk) (h : runOps e ops = Except.ok e2) :
    e2.wf ∧ e2.statusOk := by
  induction ops generalizing e with
  | nil =>
    unfold runOps at h
    obtain rfl : e = e2 := by simpa using h
    exact ⟨hwf, hok⟩
  | cons op ops ih =>
    unfold runOps at h
    rcases hap : e.applyOp op with err | e1
    · rw [hap] at h
      exact absurd h (by simp)
    · rw [hap] at h
      have h1 : e1.wf ∧ e1.statusOk := by
        cases op with
        | initiate c s d sz dir =>
          exact initiate_ok_inv e c s d sz dir e1 hwf hok
            (by simpa [DMAEngine.applyOp] using hap)
        | process =>
          obtain rfl : e.process_transfers = e1 := by
            simpa [DMAEngine.applyOp] using hap
          exact process_inv e hwf hok
      exact ih e1 h1.1 h1.2 h

theorem mkEngine_wf (n : ℕ) : (DMAEngine.mkEngine n).wf := by
  exact ⟨by simp [DMAEngine.mkEngine], by simp [DMAEngine.mkEngine]⟩

theorem mkEngine_statusOk (n : ℕ) : (DMAEngine.mkEngine n).statusOk := by
  intro ch hch
  right
  simp only [DMAEngine.mkEngine] at hch ⊢
  exact ⟨nth_replicate n ch _ _ hch, nth_replicate n ch _ _ hch⟩

/-- Claim C9: from a freshly constructed `DMAEngine`, after any sequence of
successful `initiate_transfer` and `process_transfers` calls, a channel's
status is "busy" exactly when its queue is non-empty and "idle" exactly when
it is empty; moreover one `process_transfers` call dequeues at most one
transfer per channel (each queue becomes its own tail) and adds the
dequeued front sizes to `total_bytes_transferred`. -/
theorem dma_engine_status_invariant (n : ℕ) (ops : List DMAOp)
    (e : DMAEngine) (h : runOps (DMAEngine.mkEngine n) ops = Except.ok e) :
    (∀ ch : ℕ, ch < e.num_channels →
      ((nth e.channel_status ch "" = "busy" ↔
          nth e.transfer_queue ch [] ≠ []) ∧
       (nth e.channel_status ch "" = "idle" ↔
          nth e.transfer_queue ch [] = []))) ∧
    (∀ ch : ℕ, nth e.process_transfers.transfer_queue ch [] =
      (nth e.transfer_queue ch []).tail) ∧
    e.process_transfers.total_bytes_transferred =
      e.total_bytes_transferred + pendingHeadBytes e := by
  obtain ⟨hwf, hok⟩ :=
    runOps_inv ops _ e (mkEngine_wf n) (mkEngine_statusOk n) h
  refine ⟨?_, ?_, ?_⟩
  · intro ch hch
    rcases hok ch hch with ⟨hb, hne⟩ | ⟨hid, hemp⟩
    · refine ⟨⟨fun _ => hne, fun _ => hb⟩, ⟨fun hidq => ?_, fun hq => absurd hq hne⟩⟩
      rw [hb] at hidq
      exact absurd hidq (by decide)
    · refine ⟨⟨fun hbq => ?_, fun hq => absurd hemp hq⟩, ⟨fun _ => hemp, fun _ => hid⟩⟩
      rw [hid] at hbq
      exact absurd hbq (by decide)
  · intro ch
    unfold DMAEngine.process_transfers
    by_cases hch : ch < e.num_channels
    · exact (foldl_processStep_mem _ e ch (List.nodup_range _)
        (List.mem_range.mpr hch)).1
    · rw [(foldl_processStep_not_mem (List.range e.num_channels) e ch
        (by simpa using hch)).1,
        nth_of_len_le e.transfer_queue ch [] (by rw [hwf.2]; omega)]
      rfl
  · exact foldl_processStep_bytes (List.range e.num_channels) e
      (List.nodup_range _)

/-- Witness for Claim C9 at a concrete two-channel engine: one transfer of
100 bytes is enqueued on channel 0 and then processed, and the byte-counter
conclusion of the invariant theorem is instantiated at the resulting
engine. -/
theorem dma_engine_status_invariant_witness :
    runOps (DMAEngine.mkEngine 2)
        [DMAOp.initiate 0 11 22 100 "h2d", DMAOp.process] =
      Except.ok
        { num_channels := 2, channel_status := ["idle", "idle"],
          transfer_queue := [[], []], total_bytes_transferred := 100,
          total_transfers := 1 } ∧
    (DMAEngine.process_transfers
        { num_channels := 2, channel_status := ["idle", "idle"],
          transfer_queue := [[], []], total_bytes_transferred := 100,
          total_transfers := 1 }).total_bytes_transferred =
      (100 : ℤ) + pendingHeadBytes
        { num_channels := 2, channel_status := ["idle", "idle"],
          transfer_queue := [[], []], total_bytes_transferred := 100,
          total_transfers := 1 } :=
  ⟨by rfl,
    (dma_engine_status_invariant 2
      [DMAOp.initiate 0 11 22 100 "h2d", DMAOp.process]
      { num_channels := 2, channel_status := ["idle", "idle"],
        transfer_queue := [[], []], total_bytes_transferred := 100,
        total_transfers := 1 } (by rfl)).2.2⟩

/-- Claim C10: `initiate_transfer` raises `ValueError` exactly when
`channel ≥ num_channels`; a negative channel with
`-num_channels ≤ channel ≤ -1` is accepted and the transfer is enqueued on
channel `num_channels + channel` (Python negative indexing), which is also
marked busy. -/
theorem initiate_transfer_negative_indexing (e : DMAEngine)
    (ch s d sz : ℤ) (dir : String) (hwf : e.wf) :
    ((e.initiate_transfer ch s d sz dir =
        Except.error DMAError.valueError) ↔ (e.num_channels : ℤ) ≤ ch) ∧
    (-(e.num_channels : ℤ) ≤ ch → ch < 0 →
      e.initiate_transfer ch s d sz dir = Except.ok
        { e with
          transfer_queue := e.transfer_queue.set
            (ch + (e.num_channels : ℤ)).toNat
            (nth e.transfer_queue (ch + (e.num_channels : ℤ)).toNat [] ++
              [⟨s, d, sz, dir, "pending"⟩]),
          channel_status := e.channel_status.set
            (ch + (e.num_channels : ℤ)).toNat "busy" }) := by
  obtain ⟨hs, hq⟩ := hwf
  constructor
  · constructor
    · intro herr
      by_contra hch
      unfold DMAEngine.initiate_transfer at herr
      rw [if_neg hch] at herr
      rcases hpi : pyIndex e.transfer_queue.length ch with _ | i
      · rw [hpi] at herr
        exact absurd herr (by simp)
      · rw [hpi] at herr
        rcases hpj : pyIndex e.channel_status.length ch with _ | j
        · rw [hpj] at herr
          exact absurd herr (by simp)
        · rw [hpj] at herr
          exact absurd herr (by simp)
    · intro hch
      unfold DMAEngine.initiate_transfer
      rw [if_pos hch]
  · intro h1 h2
    have hch : ¬((e.num_channels : ℤ) ≤ ch) := by omega
    have hpi : pyIndex e.transfer_queue.length ch =
        some (ch + (e.num_channels : ℤ)).toNat := by
      unfold pyIndex
      rw [hq, if_neg (by omega), if_pos (by omega)]
    have hpj : pyIndex e.channel_status.length ch =
        some (ch + (e.num_channels : ℤ)).toNat := by
      unfold pyIndex
      rw [hs, if_neg (by omega), if_pos (by omega)]
    unfold DMAEngine.initiate_transfer
    rw [if_neg hch, hpi, hpj]

/-- Witness for Claim C10: on a fresh 8-channel engine, channel −1 is
accepted and the transfer lands on channel 7, which becomes busy. -/
theorem initiate_transfer_negative_indexing_witness :
    DMAEngine.wf (DMAEngine.mkEngine 8) ∧
    (DMAEngine.mkEngine 8).initiate_transfer (-1) 11 22 4096 "h2d" =
      Except.ok
        { num_channels := 8,
          channel_status := ["idle", "idle", "idle", "idle", "idle", "idle",
            "idle", "busy"],
          transfer_queue := [[], [], [], [], [], [], [],
            [⟨11, 22, 4096, "h2d", "pending"⟩]],
          total_bytes_transferred := 0, total_transfers := 0 } :=
  ⟨by decide,
    (initiate_transfer_negative_indexing (DMAEngine.mkEngine 8) (-1) 11 22
      4096 "h2d" (by decide)).2 (by decide) (by decide)⟩

/-- `TFLNWaferType` enum from `tfln_components.py`. -/
inductive TFLNWaferType where
  | X_CUT
  | Y_CUT
  | Z_CUT
deriving DecidableEq

/-- `ModulationFormat` enum from `tfln_components.py`. -/
inductive ModulationFormat where
  | OOK
  | PAM4
  | PAM8
  | QAM16
  | QAM64
deriving DecidableEq

/-- `TFLNMaterialProperties` dataclass fields. -/
structure TFLNMaterialProperties where
  n_ordinary : ℝ
  n_extraordinary : ℝ
  r33 : ℝ
  r13 : ℝ
  r22 : ℝ
  dn_dt : ℝ
  loss_te : ℝ
  loss_tm : ℝ
  chi2 : ℝ
  chi3 : ℝ

/-- The default-constructed `TFLNMaterialProperties()` instance every
component uses. -/
def TFLNMaterialProperties.mkDefault : TFLNMaterialProperties :=
  ⟨2.211, 2.138, 30.8, 8.6, 3.4, 3.0e-5, 0.27, 0.30, 27.0, 2.5e-22⟩

/-- `get_pockels_coefficient`: effective Pockels coefficient by wafer cut. -/
def TFLNMaterialProperties.get_pockels_coefficient
    (m : TFLNMaterialProperties) : TFLNWaferType → ℝ
  | TFLNWaferType.X_CUT => m.r33
  | TFLNWaferType.Y_CUT => m.r22
  | TFLNWaferType.Z_CUT => m.r13

/-- `TFLNWaveguide` dataclass fields (its `material` attribute is always the
default-constructed material). -/
structure TFLNWaveguide where
  width : ℝ
  height : ℝ
  length : ℝ
  wafer_type : TFLNWaferType
  wavelength : ℝ

/-- `TFLNWaveguide.effective_index`: two-regime Marcatili approximation
switching at the single-mode cutoff V = 2.405. -/
noncomputable def TFLNWaveguide.effective_index (w : TFLNWaveguide)
    (polarization : String) : ℝ :=
  let material := TFLNMaterialProperties.mkDefault
  let n_core := if polarization = "TE" then material.n_extraordinary
    else material.n_ordinary
  let n_clad : ℝ := 1.45
  let V := (2 * Real.pi / (w.wavelength * 1e-3)) * w.width *
    Real.sqrt (n_core ^ 2 - n_clad ^ 2)
  let b := if V < 2.405 then (V / 2.405) ^ 2 else 1 - (2.405 / V) ^ 2
  n_clad + (n_core - n_clad) * b

/-- `TFLNWaveguide.propagation_loss` in dB (length converted mm → cm). -/
noncomputable def TFLNWaveguide.propagation_loss (w : TFLNWaveguide)
    (polarization : String) : ℝ :=
  let material := TFLNMaterialProperties.mkDefault
  let loss_per_cm := if polarization = "TE" then material.loss_te
    else material.loss_tm
  loss_per_cm * (w.length / 10)

/-- `TFLNWaveguide.group_velocity` in m/s. -/
noncomputable def TFLNWaveguide.group_velocity (w : TFLNWaveguide)
    (polarization : String) : ℝ :=
  let n_eff := w.effective_index polarization
  let c : ℝ := 3e8
  let n_g := n_eff * 1.05
  c / n_g

/-- `TFLNMachZehnderModulator` dataclass fields. -/
structure TFLNMachZehnderModulator where
  interaction_length : ℝ
  electrode_gap : ℝ
  wafer_type : TFLNWaferType
  wavelength : ℝ

/-- The waveguide `__post_init__` builds: width 1.5 μm, height 0.6 μm,
length equal to the interaction length. -/
def TFLNMachZehnderModulator.waveguide (m : TFLNMachZehnderModulator) :
    TFLNWaveguide :=
  ⟨1.5, 0.6, m.interaction_length, m.wafer_type, m.wavelength⟩

/-- `TFLNMachZehnderModulator.half_wave_voltage`:
Vπ = λ·d / (n³·r·Γ·L), with λ, d, L converted to meters and r to m/V. -/
noncomputable def TFLNMachZehnderModulator.half_wave_voltage
    (m : TFLNMachZehnderModulator) (overlap_factor : ℝ) : ℝ :=
  let material := TFLNMaterialProperties.mkDefault
  let r_eff := material.get_pockels_coefficient m.wafer_type
  let n_eff := m.waveguide.effective_index "TE"
  let wavelength_m := m.wavelength * 1e-9
  let gap_m := m.electrode_gap * 1e-6
  let length_m := m.interaction_length * 1e-3
  (wavelength_m * gap_m) /
    (n_eff ^ 3 * r_eff * 1e-12 * overlap_factor * length_m)

/-- `TFLNMachZehnderModulator.modulation_bandwidth` in GHz: minimum of the
velocity-mismatch-limited bandwidth and the fixed 120 GHz electrode-loss
ceiling. -/
noncomputable def TFLNMachZehnderModulator.modulation_bandwidth
    (m : TFLNMachZehnderModulator) : ℝ :=
  let v_optical := m.waveguide.group_velocity "TE"
  let v_rf : ℝ := 1.2e8
  let delta_v := |v_optical - v_rf|
  let length_m := m.interaction_length * 1e-3
  let f_3db_velocity := 0.44 * v_optical / (delta_v * length_m) / 1e9
  let f_3db_loss : ℝ := 120
  min f_3db_velocity f_3db_loss

/-- `TFLNMachZehnderModulator.insertion_loss` in dB. -/
noncomputable def TFLNMachZehnderModulator.insertion_loss
    (m : TFLNMachZehnderModulator) : ℝ :=
  let wg_loss := m.waveguide.propagation_loss "TE"
  let split_loss : ℝ := 0.1
  let coupling_loss : ℝ := 0.5
  wg_loss + split_loss + coupling_loss

/-- The PAM4 level dictionary of `encode_pam4`: symbol values 0..3 map to the
four equally spaced voltages; any other key raises `KeyError` (`none`). -/
noncomputable def pam4Levels (v_pi : ℝ) : ℕ → Option ℝ
  | 0 => some 0.0
  | 1 => some (v_pi / 3)
  | 2 => some (2 * v_pi / 3)
  | 3 => some v_pi
  | _ => none

/-- The symbol loop of `encode_pam4`: consume the bit list two at a time,
dropping a trailing unpaired bit; a bad symbol value propagates the
`KeyError`. -/
noncomputable def encodePam4Aux (v_pi : ℝ) : List ℕ → Option (List ℝ)
  | b1 :: b2 :: rest =>
    match pam4Levels v_pi (b1 * 2 + b2), encodePam4Aux v_pi rest with
    | some v, some vs => some (v :: vs)
    | _, _ => none
  | _ => some []

/-- `TFLNMachZehnderModulator.encode_pam4` (the code calls
`half_wave_voltage()` with its default overlap factor 0.8). -/
noncomputable def TFLNMachZehnderModulator.encode_pam4
    (m : TFLNMachZehnderModulator) (bits : List ℕ) : Option (List ℝ) :=
  encodePam4Aux (m.half_wave_voltage 0.8) bits

/-- Spec-side description of the PAM4 grouping: each consecutive bit pair
becomes the symbol value `b1*2 + b2`, a trailing unpaired bit is dropped. -/
def pam4_symbols : List ℕ → List ℕ
  | b1 :: b2 :: rest => (b1 * 2 + b2) :: pam4_symbols rest
  | _ => []

/-- Spec-side voltage of a PAM4 symbol value in {0, 1, 2, 3}: the four
equally spaced levels {0, Vπ/3, 2Vπ/3, Vπ}. -/
noncomputable def pam4_levelValue (v_pi : ℝ) : ℕ → ℝ
  | 0 => 0
  | 1 => v_pi / 3
  | 2 => 2 * v_pi / 3
  | _ => v_pi

/-- `TFLNRingModulator` dataclass fields. -/
structure TFLNRingModulator where
  radius : ℝ
  coupling_gap : ℝ
  wafer_type : TFLNWaferType
  wavelength : ℝ

/-- The ring's waveguide from `__post_init__`: width 1.2 μm, length the
circumference converted to mm. -/
noncomputable def TFLNRingModulator.waveguide (r : TFLNRingModulator) :
    TFLNWaveguide :=
  ⟨1.2, 0.6, 2 * Real.pi * r.radius / 1000, r.wafer_type, r.wavelength⟩

/-- `TFLNRingModulator.tuning_efficiency` in pm/V: uses a hardcoded 5 μm
electrode gap, not the instance's `coupling_gap` field. -/
noncomputable def TFLNRingModulator.tuning_efficiency
    (r : TFLNRingModulator) : ℝ :=
  let material := TFLNMaterialProperties.mkDefault
  let r_eff := material.get_pockels_coefficient r.wafer_type
  let n_eff := r.waveguide.effective_index "TE"
  let gap_m : ℝ := 5e-6
  let tuning := (r.wavelength * n_eff ^ 3 * r_eff * 1e-12) / (2 * gap_m)
  tuning * 1e12

/-- `TFLNPhotonicLink` constructor arguments. -/
structure TFLNPhotonicLink where
  data_rate : ℝ
  reach : ℝ
  modulation : ModulationFormat

/-- The fixed modulator `TFLNPhotonicLink.__init__` builds: 15 mm
interaction length, 6 μm gap, X-cut, default 1550 nm wavelength. -/
def TFLNPhotonicLink.modulator (_l : TFLNPhotonicLink) :
    TFLNMachZehnderModulator :=
  ⟨15.0, 6.0, TFLNWaferType.X_CUT, 1550.0⟩

/-- Result dict of `TFLNPhotonicLink.link_budget`. -/
structure LinkBudget where
  tx_power_dbm : ℝ
  fiber_loss_db : ℝ
  rx_sensitivity_dbm : ℝ
  link_margin_db : ℝ
  adequate : Bool

/-- `TFLNPhotonicLink.link_budget`: 3 dBm laser minus modulator insertion
loss, 0.2 dB/km fiber loss, −15 dBm receiver sensitivity, and the strict
3 dB margin verdict. -/
noncomputable def TFLNPhotonicLink.link_budget (l : TFLNPhotonicLink) :
    LinkBudget :=
  let laser_power : ℝ := 3.0
  let modulator_loss := l.modulator.insertion_loss
  let tx_power := laser_power - modulator_loss
  let fiber_loss := 0.2 * l.reach
  let rx_sensitivity : ℝ := -15.0
  let margin := tx_power - fiber_loss - rx_sensitivity
  ⟨tx_power, fiber_loss, rx_sensitivity, margin, decide (margin > 3.0)⟩

theorem confinement_nonneg (V : ℝ) :
    0 ≤ if V < 2.405 then (V / 2.405) ^ 2 else 1 - (2.405 / V) ^ 2 := by
  split_ifs with h
  · positivity
  · have hV : (2.405 : ℝ) ≤ V := le_of_not_lt h
    have hVpos : (0 : ℝ) < V := by linarith
    have h1 : 2.405 / V ≤ 1 := (div_le_one hVpos).mpr hV
    have h0 : 0 ≤ 2.405 / V := by positivity
    nlinarith

theorem eff_core (ncore V : ℝ) (h : 1.45 ≤ ncore) :
    1.45 ≤ 1.45 + (ncore - 1.45) *
      (if V < 2.405 then (V / 2.405) ^ 2 else 1 - (2.405 / V) ^ 2) := by
  have hb := confinement_nonneg V
  nlinarith

/-- The effective index is at least the cladding index 1.45 for any geometry
and polarization (both confinement-factor regimes are non-negative). -/
theorem effective_index_ge (w : TFLNWaveguide) (pol : String) :
    1.45 ≤ w.effective_index pol := by
  have hcore : (1.45 : ℝ) ≤
      (if pol = "TE" then TFLNMaterialProperties.mkDefault.n_extraordinary
       else TFLNMaterialProperties.mkDefault.n_ordinary) := by
    split_ifs <;> norm_num [TFLNMaterialProperties.mkDefault]
  exact eff_core _ _ hcore

theorem effective_index_pos (w : TFLNWaveguide) (pol : String) :
    0 < w.effective_index pol :=
  lt_of_lt_of_le (by norm_num) (effective_index_ge w pol)

theorem pockels_pos (t : TFLNWaferType) :
    0 < TFLNMaterialProperties.mkDefault.get_pockels_coefficient t := by
  cases t <;>
    norm_num [TFLNMaterialProperties.mkDefault,
      TFLNMaterialProperties.get_pockels_coefficient]

/-- The effective index only reads the waveguide's width and wavelength. -/
theorem effective_index_congr (w1 w2 : TFLNWaveguide) (pol : String)
    (hw : w1.width = w2.width) (hwl : w1.wavelength = w2.wavelength) :
    w1.effective_index pol = w2.effective_index pol := by
  obtain ⟨a1, b1, c1, d1, e1⟩ := w1
  obtain ⟨a2, b2, c2, d2, e2⟩ := w2
  simp only at hw hwl
  subst hw
  subst hwl
  rfl

/-- Claim C2: for every `TFLNPhotonicLink`, the reported margin is
tx_power − fiber_loss − rx_sensitivity and `adequate` holds exactly when
that margin strictly exceeds 3.0 dB; at reach 69.975 km the margin is
exactly 3.0 and `adequate` is `false`. -/
theorem link_budget_adequate_iff_margin (l : TFLNPhotonicLink) :
    (l.link_budget.link_margin_db =
      l.link_budget.tx_power_dbm - l.link_budget.fiber_loss_db -
        l.link_budget.rx_sensitivity_dbm) ∧
    (l.link_budget.adequate = true ↔ l.link_budget.link_margin_db > 3.0) ∧
    (TFLNPhotonicLink.mk 400 69.975
      ModulationFormat.PAM4).link_budget.link_margin_db = 3.0 ∧
    (TFLNPhotonicLink.mk 400 69.975
      ModulationFormat.PAM4).link_budget.adequate = false := by
  have hm : (TFLNPhotonicLink.mk 400 69.975
      ModulationFormat.PAM4).link_budget.link_margin_db = 3.0 := by
    simp only [TFLNPhotonicLink.link_budget, TFLNPhotonicLink.modulator,
      TFLNMachZehnderModulator.insertion_loss,
      TFLNMachZehnderModulator.waveguide, TFLNWaveguide.propagation_loss,
      TFLNMaterialProperties.mkDefault]
    norm_num
  refine ⟨rfl, decide_eq_true_iff, hm, decide_eq_false_iff_not.mpr ?_⟩
  show ¬((TFLNPhotonicLink.mk 400 69.975
    ModulationFormat.PAM4).link_budget.link_margin_db > 3.0)
  rw [hm]
  norm_num

/-- Claim C3: for every modulator with positive interaction length and
electrode gap, the modulation bandwidth is the minimum of the
velocity-mismatch-limited bandwidth 0.44·v/( |v − v_rf|·L ) (v_rf =
1.2×10⁸ m/s, L in meters, result in GHz) and the fixed 120 GHz ceiling,
hence never exceeds 120 GHz. -/
theorem modulation_bandwidth_le_ceiling (m : TFLNMachZehnderModulator)
    (h1 : 0 < m.interaction_length) (h2 : 0 < m.electrode_gap) :
    m.modulation_bandwidth =
      min (0.44 * m.waveguide.group_velocity "TE" /
        (|m.waveguide.group_velocity "TE" - 1.2e8| *
          (m.interaction_length * 1e-3)) / 1e9) 120 ∧
    m.modulation_bandwidth ≤ 120 := by
  refine ⟨rfl, ?_⟩
  rw [show m.modulation_bandwidth =
    min (0.44 * m.waveguide.group_velocity "TE" /
      (|m.waveguide.group_velocity "TE" - 1.2e8| *
        (m.interaction_length * 1e-3)) / 1e9) 120 from rfl]
  exact min_le_right _ _

/-- Witness for Claim C3 at the demo modulator (15 mm, 6 μm, X-cut). -/
theorem modulation_bandwidth_le_ceiling_witness :
    (0 : ℝ) < 15.0 ∧ (0 : ℝ) < 6.0 ∧
    (TFLNMachZehnderModulator.mk 15.0 6.0 TFLNWaferType.X_CUT
      1550.0).modulation_bandwidth ≤ 120 :=
  ⟨by norm_num, by norm_num,
    (modulation_bandwidth_le_ceiling
      (TFLNMachZehnderModulator.mk 15.0 6.0 TFLNWaferType.X_CUT 1550.0)
      (by norm_num) (by norm_num)).2⟩

/-- Claim C8: `tuning_efficiency` does not depend on `coupling_gap`: two
rings agreeing on radius, wafer cut and wavelength but with different
coupling gaps report the same tuning efficiency, because the computation
hardcodes a 5 μm electrode gap. -/
theorem tuning_efficiency_ignores_coupling_gap (r1 r2 : TFLNRingModulator)
    (hrad : r1.radius = r2.radius) (hcut : r1.wafer_type = r2.wafer_type)
    (hwl : r1.wavelength = r2.wavelength)
    (hgap : r1.coupling_gap ≠ r2.coupling_gap) :
    r1.tuning_efficiency = r2.tuning_efficiency := by
  obtain ⟨rad1, g1, t1, wl1⟩ := r1
  obtain ⟨rad2, g2, t2, wl2⟩ := r2
  simp only at hrad hcut hwl
  subst hrad
  subst hcut
  subst hwl
  rfl

/-- Witness for Claim C8: two 50 μm rings with coupling gaps 200 nm and
100 nm have equal tuning efficiency. -/
theorem tuning_efficiency_ignores_coupling_gap_witness :
    (50.0 : ℝ) = 50.0 ∧ (200.0 : ℝ) ≠ 100.0 ∧
    (TFLNRingModulator.mk 50.0 200.0 TFLNWaferType.X_CUT
        1550.0).tuning_efficiency =
      (TFLNRingModulator.mk 50.0 100.0 TFLNWaferType.X_CUT
        1550.0).tuning_efficiency :=
  ⟨rfl, by norm_num,
    tuning_efficiency_ignores_coupling_gap _ _ rfl rfl rfl (by norm_num)⟩

/-- Claim C5: for two modulators sharing electrode gap, wafer cut and
wavelength (all physically positive) with positive interaction lengths
L₁ < L₂, the half-wave voltage at L₂ is strictly below the one at L₁:
Vπ = λ·d/(n_eff³·r_eff·Γ·L) is strictly decreasing in L. -/
theorem half_wave_voltage_strict_anti (m1 m2 : TFLNMachZehnderModulator)
    (overlap_factor : ℝ)
    (hgap : m1.electrode_gap = m2.electrode_gap)
    (hcut : m1.wafer_type = m2.wafer_type)
    (hwl : m1.wavelength = m2.wavelength)
    (hL1 : 0 < m1.interaction_length)
    (hL12 : m1.interaction_length < m2.interaction_length)
    (hgp : 0 < m1.electrode_gap) (hwp : 0 < m1.wavelength)
    (hov : 0 < overlap_factor) :
    m2.half_wave_voltage overlap_factor <
      m1.half_wave_voltage overlap_factor := by
  obtain ⟨L1, g1, t1, w1⟩ := m1
  obtain ⟨L2, g2, t2, w2⟩ := m2
  simp only at hgap hcut hwl hL1 hL12 hgp hwp
  subst hgap
  subst hcut
  subst hwl
  have hne : (TFLNMachZehnderModulator.mk L2 g1 t1
        w1).waveguide.effective_index "TE" =
      (TFLNMachZehnderModulator.mk L1 g1 t1
        w1).waveguide.effective_index "TE" :=
    effective_index_congr _ _ _ rfl rfl
  simp only [TFLNMachZehnderModulator.half_wave_voltage]
  rw [hne]
  set nEff := (TFLNMachZehnderModulator.mk L1 g1 t1
    w1).waveguide.effective_index "TE" with hnEff
  have hnp : 0 < nEff := effective_index_pos _ _
  have hrp : 0 <
      TFLNMaterialProperties.mkDefault.get_pockels_coefficient t1 :=
    pockels_pos t1
  have hA : 0 < w1 * 1e-9 * (g1 * 1e-6) :=
    mul_pos (mul_pos hwp (by norm_num)) (mul_pos hgp (by norm_num))
  have hK : 0 < nEff ^ 3 *
      TFLNMaterialProperties.mkDefault.get_pockels_coefficient t1 *
      1e-12 * overlap_factor :=
    mul_pos (mul_pos (mul_pos (pow_pos hnp 3) hrp) (by norm_num)) hov
  have hb : 0 < nEff ^ 3 *
      TFLNMaterialProperties.mkDefault.get_pockels_coefficient t1 *
      1e-12 * overlap_factor * (L1 * 1e-3) :=
    mul_pos hK (mul_pos hL1 (by norm_num))
  have hc : nEff ^ 3 *
      TFLNMaterialProperties.mkDefault.get_pockels_coefficient t1 *
      1e-12 * overlap_factor * (L1 * 1e-3) <
      nEff ^ 3 *
      TFLNMaterialProperties.mkDefault.get_pockels_coefficient t1 *
      1e-12 * overlap_factor * (L2 * 1e-3) := by
    apply mul_lt_mul_of_pos_left _ hK
    nlinarith
  exact div_lt_div_of_pos_left hA hb hc

/-- Witness for Claim C5: the 10 mm and 15 mm X-cut modulators with 6 μm
gap at 1550 nm and the default overlap factor 0.8. -/
theorem half_wave_voltage_strict_anti_witness :
    (6.0 : ℝ) = 6.0 ∧ (0 : ℝ) < 10.0 ∧ (10.0 : ℝ) < 15.0 ∧ (0 : ℝ) < 6.0 ∧
    (0 : ℝ) < 1550.0 ∧ (0 : ℝ) < 0.8 ∧
    (TFLNMachZehnderModulator.mk 15.0 6.0 TFLNWaferType.X_CUT
        1550.0).half_wave_voltage 0.8 <
      (TFLNMachZehnderModulator.mk 10.0 6.0 TFLNWaferType.X_CUT
        1550.0).half_wave_voltage 0.8 :=
  ⟨rfl, by norm_num, by norm_num, by norm_num, by norm_num, by norm_num,
    half_wave_voltage_strict_anti
      (TFLNMachZehnderModulator.mk 10.0 6.0 TFLNWaferType.X_CUT 1550.0)
      (TFLNMachZehnderModulator.mk 15.0 6.0 TFLNWaferType.X_CUT 1550.0)
      0.8 rfl rfl rfl (by norm_num) (by norm_num) (by norm_num)
      (by norm_num) (by norm_num)⟩

theorem encodePam4Aux_eq (v : ℝ) : ∀ (bits : List ℕ),
    (∀ b ∈ bits, b ≤ 1) →
    encodePam4Aux v bits =
      some ((pam4_symbols bits).map (pam4_levelValue v))
  | [], _ => rfl
  | [_], _ => rfl
  | b1 :: b2 :: rest, h => by
    have hb1 : b1 ≤ 1 := h b1 (List.mem_cons_self _ _)
    have hb2 : b2 ≤ 1 :=
      h b2 (List.mem_cons_of_mem _ (List.mem_cons_self _ _))
    have ih := encodePam4Aux_eq v rest
      (fun b hb => h b (List.mem_cons_of_mem _ (List.mem_cons_of_mem _ hb)))
    interval_cases b1 <;> interval_cases b2 <;>
      (simp [encodePam4Aux, pam4_symbols, pam4_levelValue, pam4Levels, ih];
        try norm_num)

/-- Claim C6: `encode_pam4` groups the bits into consecutive 2-bit symbols,
maps symbol values 0..3 to the voltages {0, Vπ/3, 2Vπ/3, Vπ}, drops a
trailing unpaired bit, and on [0,1,1,0] yields exactly [Vπ/3, 2Vπ/3]. -/
theorem encode_pam4_spec (m : TFLNMachZehnderModulator) (bits : List ℕ)
    (h : ∀ b ∈ bits, b ≤ 1) :
    m.encode_pam4 bits =
      some ((pam4_symbols bits).map
        (pam4_levelValue (m.half_wave_voltage 0.8))) ∧
    m.encode_pam4 [0, 1, 1, 0] =
      some [m.half_wave_voltage 0.8 / 3,
        2 * m.half_wave_voltage 0.8 / 3] := by
  refine ⟨encodePam4Aux_eq _ bits h, ?_⟩
  show encodePam4Aux (m.half_wave_voltage 0.8) [0, 1, 1, 0] = _
  norm_num [encodePam4Aux, pam4Levels]

/-- Witness for Claim C6 at the demo modulator and the bit array
[0,1,1,0]. -/
theorem encode_pam4_spec_witness :
    (∀ b ∈ ([0, 1, 1, 0] : List ℕ), b ≤ 1) ∧
    (TFLNMachZehnderModulator.mk 15.0 6.0 TFLNWaferType.X_CUT
        1550.0).encode_pam4 [0, 1, 1, 0] =
      some ((pam4_symbols [0, 1, 1, 0]).map
        (pam4_levelValue
          ((TFLNMachZehnderModulator.mk 15.0 6.0 TFLNWaferType.X_CUT
            1550.0).half_wave_voltage 0.8))) :=
  ⟨by decide,
    (encode_pam4_spec
      (TFLNMachZehnderModulator.mk 15.0 6.0 TFLNWaferType.X_CUT 1550.0)
      [0, 1, 1, 0] (by decide)).1⟩
